import Mathlib

/-!
# Verification of the adventurelib command/room core

Shallow embedding of `adventurelib.py`, covering:

* the process-wide direction registry (`Room._directions`, `Room.add_direction`);
* the room graph with its attribute-assignment protocol (`Room.__setattr__`,
  `Room.exit`), modelled as explicit state passing over room identifiers;
* the command pattern compiler (`_register`) and the matcher/dispatcher
  loop of `start`.

Text is modelled at the ASCII level: the Python string predicates
`str.islower`, `str.isupper`, `str.isalpha`, the case mapping `str.lower`
and the whitespace splitter `str.split()` are reproduced character by
character for the basic latin range, which is the range the program and
its documented examples use.
-/

/-! ## Python string primitives (ASCII model) -/

/-- ASCII model of Python case mapping for one character: the 26 basic
latin capitals map to their lowercase forms, everything else is fixed. -/
def pyLowerChar (c : Char) : Char :=
  if 65 ≤ c.toNat ∧ c.toNat ≤ 90 then Char.ofNat (c.toNat + 32) else c

/-- Model of Python `str.lower()` (ASCII range). -/
def pyLower (s : String) : String :=
  ⟨s.data.map pyLowerChar⟩

/-- A character is cased (ASCII): it is a basic latin letter. -/
def pyCased (c : Char) : Bool :=
  c.isLower || c.isUpper

/-- Model of Python `str.islower()`: at least one cased character, and
no cased character is uppercase.  Note this accepts strings such as
`"ab1"` that mix lowercase letters with digits or punctuation. -/
def pyIslower (s : String) : Bool :=
  s.data.any pyCased && s.data.all (fun c => !c.isUpper)

/-- Model of Python `str.isupper()`: at least one cased character, and
no cased character is lowercase. -/
def pyIsupper (s : String) : Bool :=
  s.data.any pyCased && s.data.all (fun c => !c.isLower)

/-- Model of Python `str.isalpha()`: non-empty and every character is a
letter. -/
def pyIsalpha (s : String) : Bool :=
  !s.data.isEmpty && s.data.all Char.isAlpha

/-- Accumulator loop for `str.split()`: walk the characters, gathering
the current word in reverse in `acc`; whitespace ends a word, and empty
words are dropped (Python's no-argument `split` discards empty fields). -/
def pySplitGo : List Char → List Char → List String
  | [], acc => if acc.isEmpty then [] else [⟨acc.reverse⟩]
  | c :: cs, acc =>
    if c.isWhitespace then
      if acc.isEmpty then pySplitGo cs [] else ⟨acc.reverse⟩ :: pySplitGo cs []
    else
      pySplitGo cs (c :: acc)

/-- Model of Python `str.split()` with no separator: split on runs of
whitespace, discarding empty fields. -/
def pySplit (s : String) : List String :=
  pySplitGo s.data []




/-! ## Direction registry

`Room._directions` is a process-wide dict from direction name to its
reverse.  It is modelled as an association list in insertion order;
`lookupDir` returns the first binding, matching dict lookup because
`add_direction` never inserts a key twice. -/

/-- The `Room._directions` mapping, in insertion order. -/
abbrev Directions : Type := List (String × String)

/-- Dict lookup: first binding of the key, if any. -/
def lookupDir : Directions → String → Option String
  | [], _ => none
  | (k, v) :: rest, d => if k = d then some v else lookupDir rest d

/-- Membership test `d in Room._directions`. -/
def containsDir (ds : Directions) (d : String) : Bool :=
  (lookupDir ds d).isSome

/-- Errors raised by `Room.add_direction`.  `invalidCommand` carries the
literal message of the `InvalidCommand` exception — in the source the
`%r` placeholder is never interpolated, so the message does not contain
the offending name.  `keyError` models `KeyError('%r is already a
direction!' % dir)` and carries the duplicated name. -/
inductive DirErr where
  | invalidCommand (msg : String)
  | keyError (dir : String)
deriving DecidableEq

/-- The (fixed, uninterpolated) message of the lowercase-validation
error in `Room.add_direction`. -/
def invalidDirectionMsg : String :=
  "Invalid direction %r: directions must be all lowercase."

/-- `Room.add_direction(forward, reverse)`: validate `forward` then
`reverse` (each first for `islower`, then against duplicates), and only
then insert both mappings. -/
def Room.add_direction (ds : Directions) (forward reverse : String) :
    Except DirErr Directions :=
  if !pyIslower forward then .error (.invalidCommand invalidDirectionMsg)
  else if containsDir ds forward then .error (.keyError forward)
  else if !pyIslower reverse then .error (.invalidCommand invalidDirectionMsg)
  else if containsDir ds reverse then .error (.keyError reverse)
  else .ok (ds ++ [(forward, reverse), (reverse, forward)])

/-- The registry contents after the two module-initialization calls
`Room.add_direction('north', 'south')` and
`Room.add_direction('east', 'west')`. -/
def initialDirections : Directions :=
  [("north", "south"), ("south", "north"), ("east", "west"), ("west", "east")]


instance {ε α : Type} [DecidableEq ε] [DecidableEq α] : DecidableEq (Except ε α) := fun a b =>
  match a, b with
  | .ok x, .ok y =>
    if h : x = y then .isTrue (by rw [h]) else .isFalse (by intro he; cases he; exact h rfl)
  | .ok _, .error _ => .isFalse (by intro h; cases h)
  | .error _, .ok _ => .isFalse (by intro h; cases h)
  | .error x, .error y =>
    if h : x = y then .isTrue (by rw [h]) else .isFalse (by intro he; cases he; exact h rfl)

/-! ## Room graph

Python `Room` objects are mutable objects with identity; the heap is
modelled as a function from room identifier (`Nat`) to attribute map.
An attribute holds either a reference to another room or a non-`Room`
value (`Value.prim`, e.g. the description string). -/

/-- A value stored in a room attribute: a reference to a `Room`, or any
non-`Room` value (modelled by its textual payload). -/
inductive Value where
  | room (id : Nat)
  | prim (s : String)
deriving DecidableEq

/-- The attribute state of every room: `s r n` is room `r`'s attribute
`n`, or `none` when the attribute is unset. -/
def RoomState : Type := Nat → String → Option Value

/-- One raw `object.__setattr__`: update a single attribute slot. -/
def write (s : RoomState) (r : Nat) (n : String) (v : Value) : RoomState :=
  fun r2 n2 => if r2 = r ∧ n2 = n then some v else s r2 n2

/-- Errors raised by the `Room` attribute protocol.  `invalidDirection`
models the `raise InvalidDirection(...)` branch of `Room.__setattr__`
(in the source that name is not even defined, so at runtime this branch
raises `NameError`; either way the assignment fails).  `keyError` models
`KeyError('%r is not a direction' % direction)` in `Room.exit`. -/
inductive SetErr where
  | invalidDirection (name : String)
  | keyError (name : String)
deriving DecidableEq

/-- `Room.__setattr__(self, name, value)`: when `value` is a `Room`,
`name` must be a registered direction, and the reverse slot of the
target room is written immediately after the forward slot; any other
value is stored directly with no direction check and no reciprocal
write. -/
def Room.setattr (ds : Directions) (s : RoomState) (self : Nat) (name : String)
    (value : Value) : Except SetErr RoomState :=
  match value with
  | .room b =>
    match lookupDir ds name with
    | none => .error (.invalidDirection name)
    | some rev => .ok (write (write s self name (.room b)) b rev (.room self))
  | .prim p => .ok (write s self name (.prim p))

/-- `Room.exit(self, direction)`: `KeyError` if `direction` is not a
registered direction, else `getattr(self, direction, None)`. -/
def Room.exit (ds : Directions) (s : RoomState) (self : Nat) (direction : String) :
    Except SetErr (Option Value) :=
  if containsDir ds direction then .ok (s self direction) else .error (.keyError direction)

/-- Freshly constructed rooms: `Room.__init__` stores only the (already
stripped) description, through the non-`Room` branch of `__setattr__`;
every exit slot is unset. -/
def freshRooms (descs : Nat → String) : RoomState :=
  fun r n => if n = "description" then some (.prim (descs r)) else none

/-- One successful exit-assignment mutation: some room `a` is assigned
a `Room` value `b` under attribute `d`, and the assignment succeeds. -/
def ExitStep (ds : Directions) (s s2 : RoomState) : Prop :=
  ∃ (a : Nat) (d : String) (b : Nat), Room.setattr ds s a d (.room b) = .ok s2

/-- States reachable by sequences of successful exit assignments. -/
def Reachable (ds : Directions) (s0 s : RoomState) : Prop :=
  Relation.ReflTransGen (ExitStep ds) s0 s

/-- The bidirectional-link invariant of the spec: whenever room `a`'s
exit slot for registered direction `d` holds room `b`, room `b`'s slot
for the reverse of `d` holds `a`. -/
def BidirInv (ds : Directions) (s : RoomState) : Prop :=
  ∀ (a : Nat) (d : String) (b : Nat) (rev : String),
    lookupDir ds d = some rev → s a d = some (.room b) → s b rev = some (.room a)

/-- The direction registry is symmetric: reverses of registered
directions are registered, with the original as their reverse.  This
holds for every registry built by `Room.add_direction`. -/
def SymmDirs (ds : Directions) : Prop :=
  ∀ (d r : String), lookupDir ds d = some r → lookupDir ds r = some d

/-- A non-overwriting exit assignment: both slots about to be written
are currently unset. -/
def SafeExitStep (ds : Directions) (s s2 : RoomState) : Prop :=
  ∃ (a : Nat) (d : String) (b : Nat) (rev : String),
    lookupDir ds d = some rev ∧ s a d = none ∧ s b rev = none ∧
    Room.setattr ds s a d (.room b) = .ok s2


/-! ## Command patterns

`_register` compiles a template string into a tuple of tokens (`match`)
and the left-to-right list of placeholder names (`argnames`), and checks
the latter against the handler's declared parameter names (what
`inspect.signature` reports).  Handlers themselves are abstracted by an
identifier plus that parameter list; the command registry is the global
`commands` list in registration order. -/

/-- One token of a compiled pattern: a lowercase literal word, or a
`Placeholder` carrying its (lowercased) name. -/
inductive Token where
  | literal (word : String)
  | placeholder (name : String)
deriving DecidableEq

/-- A compiled pattern: the `tuple(match)` of `_register`. -/
abbrev Pattern : Type := List Token

/-- The three `InvalidCommand` variants `_register` can raise:
non-alphabetic word, mixed-case word, and wrong handler signature. -/
inductive CmdErr where
  | invalidChars
  | mixedCase
  | signature
deriving DecidableEq

/-- The word loop of `_register`: classify each word in order, failing
on the first invalid word, and collect the token list together with the
placeholder names in left-to-right order. -/
def compileWords : List String → Except CmdErr (Pattern × List String)
  | [] => .ok ([], [])
  | w :: ws =>
    if !pyIsalpha w then .error .invalidChars
    else if pyIsupper w then
      match compileWords ws with
      | .ok (m, a) => .ok (.placeholder (pyLower w) :: m, pyLower w :: a)
      | .error e => .error e
    else if pyIslower w then
      match compileWords ws with
      | .ok (m, a) => .ok (.literal w :: m, a)
      | .error e => .error e
    else .error .mixedCase

/-- `_register(command, func)`: compile the template, compare the
collected placeholder names with the handler's declared parameter names,
and only on success append `(match, func)` to the registry.  The handler
is abstracted by the identifier `fid`; `funcParams` is
`list(inspect.signature(func).parameters)`. -/
def _register (cmds : List (Pattern × Nat)) (command : String)
    (funcParams : List String) (fid : Nat) : Except CmdErr (List (Pattern × Nat)) :=
  match compileWords (pySplit command) with
  | .error e => .error e
  | .ok (m, argnames) =>
    if funcParams ≠ argnames then .error .signature
    else .ok (cmds ++ [(m, fid)])

/-- Placeholder bindings in encounter order (the `args` dict). -/
abbrev Args : Type := List (String × String)

/-- The inner loop of `start` over `zip_longest(match, ws)`: `none`
models reaching a `break` (length mismatch or literal mismatch), `some
args` models falling through to the `else` clause with bindings `args`.
A missing input word (`word is None`) breaks, and an extra input word
compares unequal to the `None` padding and breaks. -/
def matchWords : Pattern → List String → Option Args
  | [], [] => some []
  | [], _ :: _ => none
  | _ :: _, [] => none
  | t :: ts, w :: ws =>
    match t with
    | .placeholder n =>
      match matchWords ts ws with
      | some args => some ((n, w) :: args)
      | none => none
    | .literal l => if l = w then matchWords ts ws else none

/-- Outcome of one iteration of the `start` loop on one input line:
either exactly one handler is invoked, with its bindings, or
`no_command_matches` is called. -/
inductive DispatchOutcome where
  | invoked (handler : Nat) (args : Args)
  | noMatch
deriving DecidableEq

/-- The `for match, func in commands` loop: first matching entry wins
and its handler is invoked with the collected bindings; if none matches,
report no match. -/
def dispatchList : List (Pattern × Nat) → List String → DispatchOutcome
  | [], _ => .noMatch
  | (m, f) :: rest, ws =>
    match matchWords m ws with
    | some args => .invoked f args
    | none => dispatchList rest ws

/-- `ws = tuple(cmd.lower().split())`: normalize one input line. -/
def wordsOf (cmd : String) : List String :=
  pySplit (pyLower cmd)

/-- One iteration of the `start` loop on input line `cmd`. -/
def dispatch (cmds : List (Pattern × Nat)) (cmd : String) : DispatchOutcome :=
  dispatchList cmds (wordsOf cmd)

/-! ## Concrete states used in the examples below -/

/-- Three freshly constructed rooms (identifiers 0, 1, 2), each holding
only its description. -/
def exampleFresh : RoomState :=
  freshRooms (fun _ => "")

/-- After the successful assignment `room0.north = room1`: both slots of
the new link are written. -/
def exampleLinked : RoomState :=
  write (write exampleFresh 0 "north" (.room 1)) 1 "south" (.room 0)

/-- After the further assignment `room0.north = room2`, overwriting the
previous exit: room 1's south slot still holds room 0. -/
def exampleOverwritten : RoomState :=
  write (write exampleLinked 0 "north" (.room 2)) 2 "south" (.room 0)

/-- Statement of the spec's validity condition for direction names, in
the spec's own words: the name is entirely lowercase alphabetic.  Kept
separate from the source-derived `pyIslower` so the two can be
compared. -/
def specEntirelyLowercaseAlpha (s : String) : Bool :=
  !s.data.isEmpty && s.data.all Char.isLower

/-- The two example patterns of the tie-break scenario: `"go north"`
registered first (handler 0) and `"go DIRECTION"` second (handler 1). -/
def goCommands : List (Pattern × Nat) :=
  [([.literal "go", .literal "north"], 0),
   ([.literal "go", .placeholder "direction"], 1)]

/-- The compiled pattern of template `"take ITEM"`. -/
def takeItemPattern : Pattern :=
  [.literal "take", .placeholder "item"]

/-! ## Helper theorems -/

theorem char_toNat_ofNat (n : Nat) (h : n.isValidChar) : (Char.ofNat n).toNat = n := by
  simp only [Char.ofNat, dif_pos h, Char.ofNatAux, Char.toNat, UInt32.toNat]
  simp [BitVec.toNat_ofNatLt]

theorem pyLowerChar_idem (c : Char) : pyLowerChar (pyLowerChar c) = pyLowerChar c := by
  unfold pyLowerChar
  by_cases h : 65 ≤ c.toNat ∧ c.toNat ≤ 90
  · rw [if_pos h]
    have hv : (c.toNat + 32).isValidChar := by
      constructor
      omega
    have ht : (Char.ofNat (c.toNat + 32)).toNat = c.toNat + 32 := char_toNat_ofNat _ hv
    rw [if_neg]
    omega
  · rw [if_neg h, if_neg h]

theorem pyLower_idem (s : String) : pyLower (pyLower s) = pyLower s := by
  unfold pyLower
  congr 1
  rw [List.map_map]
  exact List.map_congr_left (fun c _ => pyLowerChar_idem c)

theorem initialDirections_eq :
    (Room.add_direction [] "north" "south").bind
      (fun ds => Room.add_direction ds "east" "west") = .ok initialDirections := by
  rfl

theorem symmDirs_initial : SymmDirs initialDirections := by
  intro d r h
  simp only [initialDirections, lookupDir] at h ⊢
  split_ifs at h with h1 h2 h3 h4 <;> cases h <;> subst_vars <;> simp

theorem containsDir_false_iff (ds : Directions) (x : String) :
    containsDir ds x = false ↔ lookupDir ds x = none := by
  unfold containsDir
  cases lookupDir ds x <;> simp

theorem lookupDir_append_of_notin (ds l : Directions) (x : String)
    (h : lookupDir ds x = none) : lookupDir (ds ++ l) x = lookupDir l x := by
  induction ds with
  | nil => rfl
  | cons p rest ih =>
    obtain ⟨k, v⟩ := p
    simp only [lookupDir] at h
    by_cases hk : k = x
    · rw [if_pos hk] at h
      cases h
    · rw [if_neg hk] at h
      simp only [List.cons_append, lookupDir, if_neg hk]
      exact ih h

/-! ## Claim theorems -/

/-- C10: assigning a non-`Room` value to any attribute of any room
always succeeds — with no direction-registration check, for any registry
and any attribute name, registered direction names included — sets
exactly that one attribute slot, performs no reciprocal write, and
leaves every other slot of every room unchanged. -/
theorem nonRoom_assignment_frame :
    ∀ (ds : Directions) (s : RoomState) (a : Nat) (n : String) (p : String),
      Room.setattr ds s a n (.prim p) = .ok (write s a n (.prim p)) ∧
      write s a n (.prim p) a n = some (.prim p) ∧
      (∀ (b : Nat) (m : String), ¬(b = a ∧ m = n) → write s a n (.prim p) b m = s b m) := by
  intro ds s a n p
  refine ⟨rfl, by simp [write], ?_⟩
  intro b m h
  simp only [write]
  rw [if_neg h]

theorem nonRoom_assignment_frame_witness :
    Room.setattr initialDirections exampleFresh 0 "north" (.prim "x")
      = .ok (write exampleFresh 0 "north" (.prim "x")) ∧
    write exampleFresh 0 "north" (.prim "x") 0 "north" = some (.prim "x") ∧
    write exampleFresh 0 "north" (.prim "x") 1 "south" = exampleFresh 1 "south" := by
  obtain ⟨h1, h2, h3⟩ := nonRoom_assignment_frame initialDirections exampleFresh 0 "north" "x"
  exact ⟨h1, h2, h3 1 "south" (by decide)⟩

/-- C2: immediately after a successful assignment of room `b` to room
`a`'s slot for registered direction `d`, reading `b`'s exit in the
reverse of `d` (via `Room.exit`) yields `a`. -/
theorem setattr_roundtrip :
    ∀ (ds : Directions) (s s2 : RoomState) (a b : Nat) (d rev : String),
      SymmDirs ds →
      lookupDir ds d = some rev →
      Room.setattr ds s a d (.room b) = .ok s2 →
      Room.exit ds s2 b rev = .ok (some (.room a)) := by
  intro ds s s2 a b d rev hsym hd hset
  have hrev : lookupDir ds rev = some d := hsym d rev hd
  simp only [Room.setattr, hd] at hset
  have hs2 : s2 = write (write s a d (.room b)) b rev (.room a) :=
    (Except.ok.inj hset).symm
  have hc : containsDir ds rev = true := by
    unfold containsDir
    rw [hrev]
    rfl
  unfold Room.exit
  rw [hc, if_pos rfl, hs2]
  simp [write]

theorem setattr_roundtrip_witness :
    Room.exit initialDirections exampleLinked 1 "south" = .ok (some (.room 0)) :=
  setattr_roundtrip initialDirections exampleFresh exampleLinked 0 1 "north" "south"
    symmDirs_initial (by decide) rfl

/-- C8: with both names passing the lowercase validation, a duplicate in
either position is detected before any insertion and reported as the
duplicate-direction `KeyError` (so the registry value is never partially
extended), and on success both the forward and the reverse mapping are
present in the returned registry. -/
theorem add_direction_duplicate_check :
    ∀ (ds : Directions) (f r : String),
      pyIslower f = true → pyIslower r = true →
      (containsDir ds f = true → Room.add_direction ds f r = .error (.keyError f)) ∧
      (containsDir ds f = false → containsDir ds r = true →
        Room.add_direction ds f r = .error (.keyError r)) ∧
      (containsDir ds f = false → containsDir ds r = false →
        Room.add_direction ds f r = .ok (ds ++ [(f, r), (r, f)]) ∧
        lookupDir (ds ++ [(f, r), (r, f)]) f = some r ∧
        lookupDir (ds ++ [(f, r), (r, f)]) r = some f) := by
  intro ds f r hf hr
  refine ⟨?_, ?_, ?_⟩
  · intro hcf
    simp [Room.add_direction, hf, hcf]
  · intro hcf hcr
    simp [Room.add_direction, hf, hr, hcf, hcr]
  · intro hcf hcr
    refine ⟨by simp [Room.add_direction, hf, hr, hcf, hcr], ?_, ?_⟩
    · rw [lookupDir_append_of_notin ds _ f ((containsDir_false_iff _ _).mp hcf)]
      simp [lookupDir]
    · rw [lookupDir_append_of_notin ds _ r ((containsDir_false_iff _ _).mp hcr)]
      simp only [lookupDir]
      by_cases hfr : f = r
      · subst hfr
        simp
      · rw [if_neg hfr]
        simp

theorem add_direction_duplicate_check_witness :
    Room.add_direction initialDirections "up" "down"
      = .ok (initialDirections ++ [("up", "down"), ("down", "up")]) ∧
    Room.add_direction (initialDirections ++ [("up", "down"), ("down", "up")]) "up" "elsewhere"
      = .error (.keyError "up") := by
  refine ⟨((add_direction_duplicate_check initialDirections "up" "down"
    (by decide) (by decide)).2.2 (by decide) (by decide)).1, ?_⟩
  exact (add_direction_duplicate_check _ "up" "elsewhere" (by decide) (by decide)).1 (by decide)

/-- C7 counterexample: `"ab1"` and `"cd1"` are not entirely lowercase
alphabetic (each contains a digit), yet `add_direction` accepts them:
the source only checks Python `str.islower()`, which tolerates digits
and punctuation mixed with lowercase letters. -/
theorem add_direction_accepts_digits :
    specEntirelyLowercaseAlpha "ab1" = false ∧
    specEntirelyLowercaseAlpha "cd1" = false ∧
    Room.add_direction initialDirections "ab1" "cd1"
      = .ok (initialDirections ++ [("ab1", "cd1"), ("cd1", "ab1")]) := by
  decide

/-- C7 amended: `add_direction` raises the `InvalidCommand`-kind error —
whose message is a fixed string that does not name the offending
direction — whenever either name fails Python's `islower` test (it has
an uppercase letter, or no letter at all); the forward name is checked
first, and the reverse name's check is reached once the forward name is
lowercase and not already registered. -/
theorem add_direction_islower_check :
    ∀ (ds : Directions) (f r : String),
      (pyIslower f = false →
        Room.add_direction ds f r = .error (.invalidCommand invalidDirectionMsg)) ∧
      (pyIslower f = true → containsDir ds f = false → pyIslower r = false →
        Room.add_direction ds f r = .error (.invalidCommand invalidDirectionMsg)) := by
  intro ds f r
  constructor
  · intro hf
    simp [Room.add_direction, hf]
  · intro hf hcf hr
    simp [Room.add_direction, hf, hcf, hr]

theorem add_direction_islower_check_witness :
    Room.add_direction initialDirections "North" "south"
      = .error (.invalidCommand invalidDirectionMsg) ∧
    Room.add_direction initialDirections "up" "Down"
      = .error (.invalidCommand invalidDirectionMsg) :=
  ⟨(add_direction_islower_check initialDirections "North" "south").1 (by decide),
   (add_direction_islower_check initialDirections "up" "Down").2 (by decide) (by decide) (by decide)⟩

theorem bidirInv_fresh (ds : Directions) (descs : Nat → String) :
    BidirInv ds (freshRooms descs) := by
  intro a d b rev hd hab
  exfalso
  unfold freshRooms at hab
  by_cases h : d = "description"
  · rw [if_pos h] at hab
    simp at hab
  · rw [if_neg h] at hab
    cases hab

theorem bidirInv_write_write (ds : Directions) (s : RoomState) (a b : Nat) (d rev : String)
    (hsym : SymmDirs ds) (hinv : BidirInv ds s)
    (hd : lookupDir ds d = some rev)
    (ha : s a d = none) (hb : s b rev = none) :
    BidirInv ds (write (write s a d (.room b)) b rev (.room a)) := by
  intro x dx y rx hdx hxy
  have hrevd : lookupDir ds rev = some d := hsym d rev hd
  simp only [write] at hxy
  by_cases h1 : x = b ∧ dx = rev
  · rw [if_pos h1] at hxy
    obtain ⟨hxb, hdxrev⟩ := h1
    have hya : a = y := Value.room.inj (Option.some.inj hxy)
    have hrx : rx = d := by
      rw [hdxrev, hrevd] at hdx
      exact (Option.some.inj hdx).symm
    rw [← hya, hrx, hxb]
    simp only [write]
    by_cases g1 : a = b ∧ d = rev
    · rw [if_pos g1, g1.1]
    · rw [if_neg g1]
      simp
  · rw [if_neg h1] at hxy
    by_cases h2 : x = a ∧ dx = d
    · rw [if_pos h2] at hxy
      obtain ⟨hxa, hdxd⟩ := h2
      have hyb : b = y := Value.room.inj (Option.some.inj hxy)
      have hrx : rx = rev := by
        rw [hdxd, hd] at hdx
        exact (Option.some.inj hdx).symm
      rw [← hyb, hrx, hxa]
      simp [write]
    · rw [if_neg h2] at hxy
      have hold : s y rx = some (.room x) := hinv x dx y rx hdx hxy
      simp only [write]
      by_cases g1 : y = b ∧ rx = rev
      · exfalso
        rw [g1.1, g1.2, hb] at hold
        cases hold
      · rw [if_neg g1]
        by_cases g2 : y = a ∧ rx = d
        · exfalso
          rw [g2.1, g2.2, ha] at hold
          cases hold
        · rw [if_neg g2]
          exact hold

/-- C1 counterexample: the state reached from fresh rooms by the two
successful mutations `room0.north = room1` then `room0.north = room2`
violates the bidirectional invariant — room 1's south slot still holds
room 0, but room 0's north slot now holds room 2, not room 1.  So the
invariant does not hold for every reachable state: an overwriting
mutation leaves a stale reverse pointer in the old target. -/
theorem bidir_invariant_fails_on_overwrite :
    Reachable initialDirections exampleFresh exampleOverwritten ∧
    ¬ BidirInv initialDirections exampleOverwritten := by
  constructor
  · have step1 : ExitStep initialDirections exampleFresh exampleLinked :=
      ⟨0, "north", 1, rfl⟩
    have step2 : ExitStep initialDirections exampleLinked exampleOverwritten :=
      ⟨0, "north", 2, rfl⟩
    exact Relation.ReflTransGen.tail (Relation.ReflTransGen.tail .refl step1) step2
  · intro h
    have h1 : exampleOverwritten 1 "south" = some (.room 0) := by decide
    have h2 := h 1 "south" 0 "north" (by decide) h1
    exact absurd h2 (by decide)

/-- C1 amended: starting from freshly created rooms, the bidirectional
invariant holds after every single successful exit assignment provided
no mutation overwrites an already-set exit slot (neither the forward
slot being assigned nor the target's reverse slot); a mutation that
overwrites an existing exit can leave the old target with a stale
reverse pointer, violating the invariant. -/
theorem bidir_invariant_no_overwrite :
    ∀ (ds : Directions) (descs : Nat → String) (s : RoomState),
      SymmDirs ds →
      Relation.ReflTransGen (SafeExitStep ds) (freshRooms descs) s →
      BidirInv ds s := by
  intro ds descs s hsym hreach
  induction hreach with
  | refl => exact bidirInv_fresh ds descs
  | tail hr hstep ih =>
    obtain ⟨a, d, b, rev, hd, ha, hb, hset⟩ := hstep
    simp only [Room.setattr, hd] at hset
    rw [← Except.ok.inj hset]
    exact bidirInv_write_write _ _ a b d rev hsym ih hd ha hb

theorem bidir_invariant_no_overwrite_witness :
    BidirInv initialDirections exampleLinked :=
  bidir_invariant_no_overwrite initialDirections (fun _ => "") exampleLinked symmDirs_initial
    (Relation.ReflTransGen.tail .refl
      ⟨0, "north", 1, "south", by decide, by decide, by decide, rfl⟩)

theorem add_direction_dup_forward (ds : Directions) (f r : String)
    (hf : pyIslower f = true) (hcf : containsDir ds f = true) :
    Room.add_direction ds f r = .error (.keyError f) := by
  simp [Room.add_direction, hf, hcf]

theorem add_direction_dup_reverse (ds : Directions) (f r : String)
    (hf : pyIslower f = true) (hcf : containsDir ds f = false)
    (hr : pyIslower r = true) (hcr : containsDir ds r = true) :
    Room.add_direction ds f r = .error (.keyError r) := by
  simp [Room.add_direction, hf, hcf, hr, hcr]

theorem matchWords_length_none (p : Pattern) :
    ∀ (ws : List String), p.length ≠ ws.length → matchWords p ws = none := by
  induction p with
  | nil =>
    intro ws h
    cases ws with
    | nil => simp at h
    | cons w ws2 => rfl
  | cons t ts ih =>
    intro ws h
    cases ws with
    | nil => rfl
    | cons w ws2 =>
      have hlen : ts.length ≠ ws2.length := by
        intro he
        exact h (by simp [he])
      cases t with
      | placeholder n => simp only [matchWords, ih ws2 hlen]
      | literal l =>
        simp only [matchWords]
        by_cases hl : l = w
        · rw [if_pos hl]
          exact ih ws2 hlen
        · rw [if_neg hl]

/-- C3: the dispatcher walks the command registry strictly in
registration order; the first entry whose pattern matches the normalized
input is the one whose handler is invoked, with the collected
placeholder bindings, and no later entry is considered. -/
theorem dispatch_first_match :
    ∀ (pre post : List (Pattern × Nat)) (p : Pattern) (f : Nat) (line : String) (args : Args),
      (∀ e ∈ pre, matchWords e.1 (wordsOf line) = none) →
      matchWords p (wordsOf line) = some args →
      dispatch (pre ++ (p, f) :: post) line = .invoked f args := by
  intro pre post p f line args hpre hp
  unfold dispatch
  induction pre with
  | nil => simp only [List.nil_append, dispatchList, hp]
  | cons e rest ih =>
    obtain ⟨m0, f0⟩ := e
    have h0 : matchWords m0 (wordsOf line) = none := hpre (m0, f0) (by simp)
    simp only [List.cons_append, dispatchList, h0]
    exact ih (fun e2 he => hpre e2 (List.mem_cons_of_mem _ he))

theorem dispatch_first_match_witness :
    dispatch goCommands "go north" = .invoked 0 [] :=
  dispatch_first_match [] [([.literal "go", .placeholder "direction"], 1)]
    [.literal "go", .literal "north"] 0 "go north" []
    (by intro e he; cases he) (by decide)

/-- C4: a pattern never matches an input word sequence of a different
length — neither shorter nor longer input is tolerated — and when every
registered pattern has the wrong length for the input, the dispatcher
reports no match and invokes no handler. -/
theorem length_mismatch_noMatch :
    (∀ (p : Pattern) (ws : List String), p.length ≠ ws.length → matchWords p ws = none) ∧
    (∀ (cmds : List (Pattern × Nat)) (line : String),
      (∀ e ∈ cmds, e.1.length ≠ (wordsOf line).length) → dispatch cmds line = .noMatch) := by
  constructor
  · exact matchWords_length_none
  · intro cmds line
    unfold dispatch
    induction cmds with
    | nil => intro hall; rfl
    | cons e rest ih =>
      intro hall
      obtain ⟨m, f⟩ := e
      have hm : matchWords m (wordsOf line) = none :=
        matchWords_length_none m _ (hall (m, f) (by simp))
      simp only [dispatchList, hm]
      exact ih (fun e2 he => hall e2 (List.mem_cons_of_mem _ he))

theorem length_mismatch_noMatch_witness :
    matchWords [Token.literal "go"] [] = none ∧
    dispatch goCommands "go" = .noMatch := by
  obtain ⟨h1, h2⟩ := length_mismatch_noMatch
  exact ⟨h1 [Token.literal "go"] [] (by decide), h2 goCommands "go" (by decide)⟩

/-- C5: the dispatcher lowercases the whole input line before splitting
it into words, so dispatch is insensitive to the input's case — any line
dispatches exactly like its lowercased form — and the words bound to
placeholders are the lowercased input words: `"TAKE Sword"` matches the
pattern compiled from `"take ITEM"` and binds `item = "sword"`. -/
theorem dispatch_lowercases :
    (∀ (cmds : List (Pattern × Nat)) (line : String),
      dispatch cmds line = dispatch cmds (pyLower line)) ∧
    dispatch [(takeItemPattern, 0)] "TAKE Sword" = .invoked 0 [("item", "sword")] := by
  constructor
  · intro cmds line
    unfold dispatch wordsOf
    rw [pyLower_idem]
  · decide

/-- C6: registration succeeds exactly when the placeholder names
collected left-to-right from the template equal the handler's declared
parameter names (same names, same order, same count): every successful
registration appends the compiled pattern and implies that equality, and
once the template's words compile, any mismatch yields the
signature-mismatch `InvalidCommand` error and nothing is appended. -/
theorem register_signature_check :
    ∀ (cmds : List (Pattern × Nat)) (command : String) (params : List String) (fid : Nat),
      (∀ res, _register cmds command params fid = .ok res →
        ∃ m argnames, compileWords (pySplit command) = .ok (m, argnames) ∧
          params = argnames ∧ res = cmds ++ [(m, fid)]) ∧
      (∀ m argnames, compileWords (pySplit command) = .ok (m, argnames) →
        (params = argnames → _register cmds command params fid = .ok (cmds ++ [(m, fid)])) ∧
        (params ≠ argnames → _register cmds command params fid = .error .signature)) := by
  intro cmds command params fid
  constructor
  · intro res hres
    cases hc : compileWords (pySplit command) with
    | error e =>
      simp only [_register, hc] at hres
      cases hres
    | ok pa =>
      obtain ⟨m, argnames⟩ := pa
      simp only [_register, hc] at hres
      by_cases hp : params = argnames
      · refine ⟨m, argnames, rfl, hp, ?_⟩
        rw [if_neg (not_not_intro hp)] at hres
        exact (Except.ok.inj hres).symm
      · rw [if_pos hp] at hres
        cases hres
  · intro m argnames hc
    constructor
    · intro hp
      simp only [_register, hc]
      rw [if_neg (not_not_intro hp)]
    · intro hp
      simp only [_register, hc]
      rw [if_pos hp]

theorem register_signature_check_witness :
    compileWords (pySplit "take ITEM") = .ok (takeItemPattern, ["item"]) ∧
    _register [] "take ITEM" ["thing"] 0 = .error .signature ∧
    _register [] "take ITEM" ["item"] 0 = .ok [(takeItemPattern, 0)] := by
  have hc : compileWords (pySplit "take ITEM") = .ok (takeItemPattern, ["item"]) := by decide
  refine ⟨hc, ?_, ?_⟩
  · exact ((register_signature_check [] "take ITEM" ["thing"] 0).2 _ _ hc).2 (by decide)
  · exact ((register_signature_check [] "take ITEM" ["item"] 0).2 _ _ hc).1 rfl

/-- C9 counterexample: with `"south"` as one argument, the call
`add_direction("A", "south")` fails, but with the `InvalidCommand`-kind
lowercase-validation error, not the duplicate-direction `KeyError` the
claim asserts: the forward name is validated for case before either
name's duplicate check runs. -/
theorem add_direction_invalid_beats_duplicate :
    Room.add_direction initialDirections "A" "south"
      = .error (.invalidCommand invalidDirectionMsg) := by
  decide

/-- C9 amended: after module initialization the registry holds exactly
north, south, east and west; calling `add_direction` with one of those
four as the forward argument fails with the duplicate-direction
`KeyError` for every second argument; with one of the four as the
reverse argument it fails with the duplicate-direction `KeyError`
provided the forward argument passes the `islower` validation (the
duplicate reported being the forward name when it is itself registered,
otherwise the four-name reverse argument); if the forward argument fails
the `islower` validation, the call fails with the `InvalidCommand`-kind
error instead. -/
theorem initial_directions_closed :
    ∀ (n : String),
      (containsDir initialDirections n = true ↔
        (n = "north" ∨ n = "south" ∨ n = "east" ∨ n = "west")) ∧
      (Room.add_direction initialDirections "north" n = .error (.keyError "north")) ∧
      (Room.add_direction initialDirections "south" n = .error (.keyError "south")) ∧
      (Room.add_direction initialDirections "east" n = .error (.keyError "east")) ∧
      (Room.add_direction initialDirections "west" n = .error (.keyError "west")) ∧
      (pyIslower n = true →
        (Room.add_direction initialDirections n "north"
          = .error (.keyError (if containsDir initialDirections n then n else "north"))) ∧
        (Room.add_direction initialDirections n "south"
          = .error (.keyError (if containsDir initialDirections n then n else "south"))) ∧
        (Room.add_direction initialDirections n "east"
          = .error (.keyError (if containsDir initialDirections n then n else "east"))) ∧
        (Room.add_direction initialDirections n "west"
          = .error (.keyError (if containsDir initialDirections n then n else "west")))) := by
  intro n
  have hrev : ∀ r2 : String, pyIslower r2 = true → containsDir initialDirections r2 = true →
      pyIslower n = true →
      Room.add_direction initialDirections n r2
        = .error (.keyError (if containsDir initialDirections n then n else r2)) := by
    intro r2 hr2 hcr2 hn
    by_cases hc : containsDir initialDirections n = true
    · rw [if_pos hc]
      exact add_direction_dup_forward _ n r2 hn hc
    · have hc2 : containsDir initialDirections n = false := by
        cases h : containsDir initialDirections n
        · rfl
        · exact absurd h hc
      rw [hc2]
      simp only [Bool.false_eq_true, if_false]
      exact add_direction_dup_reverse _ n r2 hn hc2 hr2 hcr2
  refine ⟨?_, ?_, ?_, ?_, ?_, ?_⟩
  · simp only [containsDir, initialDirections, lookupDir]
    split_ifs with h1 h2 h3 h4
    · simp [← h1]
    · simp [← h2]
    · simp [← h3]
    · simp [← h4]
    · constructor
      · intro h
        cases h
      · rintro (rfl | rfl | rfl | rfl)
        · exact absurd rfl h1
        · exact absurd rfl h2
        · exact absurd rfl h3
        · exact absurd rfl h4
  · exact add_direction_dup_forward _ "north" n (by decide) (by decide)
  · exact add_direction_dup_forward _ "south" n (by decide) (by decide)
  · exact add_direction_dup_forward _ "east" n (by decide) (by decide)
  · exact add_direction_dup_forward _ "west" n (by decide) (by decide)
  · intro hn
    exact ⟨hrev "north" (by decide) (by decide) hn, hrev "south" (by decide) (by decide) hn,
           hrev "east" (by decide) (by decide) hn, hrev "west" (by decide) (by decide) hn⟩

theorem initial_directions_closed_witness :
    (containsDir initialDirections "up" = true ↔
      ("up" = "north" ∨ "up" = "south" ∨ "up" = "east" ∨ "up" = "west")) ∧
    Room.add_direction initialDirections "north" "up" = .error (.keyError "north") ∧
    Room.add_direction initialDirections "up" "south" = .error (.keyError "south") := by
  obtain ⟨h1, h2, h3, h4, h5, h6⟩ := initial_directions_closed "up"
  have h7 := (h6 (by decide)).2.1
  rw [if_neg (by decide)] at h7
  exact ⟨h1, h2, h7⟩
